import Mathlib

/-!
Shallow embedding of `fake::vector` from `src/fakeVector.h`.

Pointers into the element array are modelled as offsets from `array_`
(`array_start_` is always `array_` after every `set_pointers` call and in
every constructor, so it is the constant offset 0 and is left implicit).
The buffer is a `List (Option α)` of length `capacity`: `some x` is a
constructed element, `none` a raw (uninitialized or destroyed) slot; a read
past the end of the buffer also yields `none` (reading unallocated memory
never yields a constructed value).  `isNull` models `array_ == nullptr`
(`std::allocator::allocate` returns a non-null pointer for every count,
including 0, since `operator new` never returns null).  `bufId` models the
identity of the allocation returned by `data()`: every call to
`allocator_.allocate` yields a fresh identity.

`allocator_.construct` is placement construction: on an already-live slot it
simply overwrites (the observable effect for the element values).
`allocator_.destroy` on a slot outside the buffer is undefined behaviour in
C++; the model drops such writes (`List.set` out of range is the identity),
which is invisible in every use below because the affected buffer is
discarded immediately afterwards.
-/

namespace FakeVec

/-- State of a `fake::vector<T>`: `capacity_`, `size_`, the element buffer,
nullness of `array_`, the allocation identity of `array_`, and the offsets
`array_end_ - array_` and `array_range_end_ - array_`.  (`array_start_ -
array_` is always 0.) -/
structure vector (α : Type) where
  capacity : Nat
  size : Nat
  buf : List (Option α)
  isNull : Bool
  bufId : Nat
  endOff : Nat
  rangeEndOff : Nat

variable {α : Type}

/-- `set_pointers()`: `array_start_ = array_; array_end_ = array_ + size_;
array_range_end_ = array_ + capacity_`. -/
def set_pointers (v : vector α) : vector α :=
  { v with endOff := v.size, rangeEndOff := v.capacity }

/-- The element-by-element loop of `construct_elements(begin, end, destination)`
when source and destination lie in the SAME buffer (the self-shift uses in
`insert`/`erase`): each step reads the CURRENT buffer, so a forward copy into
an overlapping later destination clobbers its own source.  `src`/`dst` are the
current read/write offsets, `count` the remaining iteration count
(`end - begin`; when `end < begin` the C++ loop `i < distance` compares
`unsigned int` against negative `difference_type` under integer promotion to
`long` and runs zero times, matching `Nat` truncated subtraction). -/
def construct_loop (buf : List (Option α)) (src dst count : Nat) : List (Option α) :=
  match count with
  | 0 => buf
  | k + 1 => construct_loop (buf.set dst (buf.getD src none)) (src + 1) (dst + 1) k

/-- The same loop when the source range lies in a DIFFERENT buffer than the
destination (the uses in `increase_array`, the copy constructors and copy
assignment, where the source is the old/right-hand buffer): reads come from
the immutable `src` list. -/
def copy_loop (src : List (Option α)) (b : Nat) (dst : List (Option α)) (d count : Nat) :
    List (Option α) :=
  match count with
  | 0 => dst
  | k + 1 => copy_loop src (b + 1) (dst.set d (src.getD b none)) (d + 1) k

/-- `construct_elements(first, last, destination)` when the source range is an
external sequence `xs` (assign/constructor arguments): writes
`some xs[i]` at successive destination offsets. -/
def write_list (buf : List (Option α)) (d : Nat) : List α → List (Option α)
  | [] => buf
  | x :: xs => write_list (buf.set d (some x)) (d + 1) xs

/-- `construct_elements(destination, count, value)`: constructs `count` copies
of `value` at successive offsets. -/
def construct_fill (buf : List (Option α)) (d count : Nat) (val : α) : List (Option α) :=
  match count with
  | 0 => buf
  | k + 1 => construct_fill (buf.set d (some val)) (d + 1) k val

/-- `destroy_elements(start, n)`: destroys the `n` slots from offset `start`. -/
def destroy_elements (buf : List (Option α)) (start n : Nat) : List (Option α) :=
  match n with
  | 0 => buf
  | k + 1 => destroy_elements (buf.set start none) (start + 1) k

/-- `increase_array(new_size)`: allocate a fresh buffer, construct
`[begin(), min(end(), begin() + new_size))` into it, destroy and deallocate
the old buffer (invisible here: that buffer is discarded), then
`array_ = new_array; capacity_ = new_size; set_pointers()`. -/
def increase_array (v : vector α) (new_size : Nat) : vector α :=
  let new_array : List (Option α) := List.replicate new_size none
  let new_array := copy_loop v.buf 0 new_array 0 (min v.endOff new_size)
  set_pointers { v with buf := new_array, isNull := false, bufId := v.bufId + 1,
                        capacity := new_size }

/-- Clean states: the derived pointers agree with `size_`/`capacity_` (every
constructor establishes this and `set_pointers` restores it), the buffer has
`capacity_` slots, and invariant I1 `size_ ≤ capacity_` holds. -/
abbrev WF (v : vector α) : Prop :=
  v.buf.length = v.capacity ∧ v.endOff = v.size ∧ v.rangeEndOff = v.capacity ∧
    v.size ≤ v.capacity

/-! ### Constructors (`fakeVector.h` lines 146–309) -/

/-- `vector(alloc)`: `capacity_(0), size_(0), array_(nullptr)`, derived
pointers from the initializer list. -/
def mk_default : vector α :=
  { capacity := 0, size := 0, buf := [], isNull := true, bufId := 0,
    endOff := 0, rangeEndOff := 0 }

/-- `vector(n)`: `capacity_(n), size_(n), array_(allocator_.allocate(n))` —
the `n` slots are allocated but never constructed, and `allocate` returns a
non-null pointer even for `n == 0` (`operator new(0)` is non-null). -/
def mk_n (n : Nat) : vector α :=
  { capacity := n, size := n, buf := List.replicate n none, isNull := false,
    bufId := 1, endOff := n, rangeEndOff := n }

/-- `vector(n, val, alloc)`: allocates `n` slots then
`construct_elements(array_, n, val)`. -/
def mk_fill (n : Nat) (val : α) : vector α :=
  { capacity := n, size := n,
    buf := construct_fill (List.replicate n none) 0 n val, isNull := false,
    bufId := 1, endOff := n, rangeEndOff := n }

/-- `vector(first, last, alloc)` and `vector(il, alloc)`: `capacity_` and
`size_` are the range length, `allocate` that many slots, then
`construct_elements(first, last, array_start_)`. -/
def mk_list (xs : List α) : vector α :=
  { capacity := xs.length, size := xs.length,
    buf := write_list (List.replicate xs.length none) 0 xs, isNull := false,
    bufId := 1, endOff := xs.length, rangeEndOff := xs.length }

/-- `vector(vector&& x)` (lines 257–270): the new object takes `x.capacity_`,
`x.size_`, `x.array_` and computes its derived pointers from the initializer
list; then `x.array_ = nullptr; x.size_ = 0; x.capacity_ = 0;
x.set_pointers()`.  Returns (constructed object, moved-from `x`). -/
def move_ctor (x : vector α) : vector α × vector α :=
  let b : vector α :=
    { capacity := x.capacity, size := x.size, buf := x.buf, isNull := x.isNull,
      bufId := x.bufId, endOff := x.size, rangeEndOff := x.capacity }
  let x' := set_pointers { x with buf := [], isNull := true, size := 0, capacity := 0 }
  (b, x')

/-! ### Assignment operators (lines 329–389) -/

/-- `operator=(const vector& x)` (lines 329–344).  If `capacity_ >= x.size_`:
`size_ = x.size(); set_pointers(); construct_elements(x.begin(), x.end(),
array_start_)`.  Else: destroy and deallocate the old buffer (discarded),
`capacity_ = size_ = x.size()`, allocate fresh, `set_pointers()`, construct.
The copy `construct_elements` reads `x`'s buffer, a different allocation,
so it is `copy_loop` with count `x.end() - x.begin() = x.endOff`. -/
def copy_assign (a x : vector α) : vector α :=
  if x.size ≤ a.capacity then
    let a := { a with size := x.size }
    let a := set_pointers a
    { a with buf := copy_loop x.buf 0 a.buf 0 x.endOff }
  else
    let a := { a with capacity := x.size, size := x.size,
                      buf := List.replicate x.size none, isNull := false,
                      bufId := a.bufId + 1 }
    let a := set_pointers a
    { a with buf := copy_loop x.buf 0 a.buf 0 x.endOff }

/-- `operator=(vector&& x)` (lines 353–365): destroy `capacity_` slots of the
old buffer and deallocate it (discarded), take `x`'s `size_`, `capacity_`,
`array_`, `set_pointers()`; then zero out `x` and `x.set_pointers()`.
Returns (assigned-to object, moved-from `x`). -/
def move_assign (a x : vector α) : vector α × vector α :=
  let a' := set_pointers { a with size := x.size, capacity := x.capacity,
                                  buf := x.buf, isNull := x.isNull, bufId := x.bufId }
  let x' := set_pointers { x with size := 0, capacity := 0, buf := [], isNull := true }
  (a', x')

/-! ### Capacity control (lines 487–545) -/

/-- `resize(n)` (lines 487–495): if `n <= size_`, destroy
`[array_start_ + n, array_start_ + size_)` and set `size_ = n` (no
`set_pointers`, so `array_end_` goes stale); else `increase_array(max(n,
2*capacity_))` then `size_ = n` (again without `set_pointers`). -/
def resize_n (v : vector α) (n : Nat) : vector α :=
  if n ≤ v.size then
    { v with buf := destroy_elements v.buf n (v.size - n), size := n }
  else
    let v := increase_array v (max n (2 * v.capacity))
    { v with size := n }

/-- Modelled from the spec: `resize(n, val)` (lines 504–514).  The shrink
branch (`n <= size_`, identical to `resize(n)`) and the growth call
`increase_array(max(n, 2*capacity_))` are transcribed from the source.  The
grow branch's fill, `construct_elements(end(), array_range_end_ -
array_end_, val)`, matches no overload of `construct_elements`: template
deduction fails on `(iterator, ptrdiff_t)`, and the fill overload needs a
`pointer` first argument to which `__gnu_cxx::__normal_iterator` has no
conversion — so `resize(n, val)` is ill-formed whenever it is instantiated
(the repository never calls it).  The spec says the grow path must
"construct-fill them with `value` when a fill value is supplied"; that fill
is modelled here with the destination and count the source's expression
spells out, read as offsets: start at `array_end_`, fill the
`array_range_end_ - array_end_` remaining slots.  Then `size_ = n;
set_pointers()` as in the source. -/
def resize_fill (v : vector α) (n : Nat) (val : α) : vector α :=
  if n ≤ v.size then
    { v with buf := destroy_elements v.buf n (v.size - n), size := n }
  else
    let v := increase_array v (max n (2 * v.capacity))
    let v := { v with buf := construct_fill v.buf v.endOff (v.rangeEndOff - v.endOff) val }
    set_pointers { v with size := n }

/-- `reserve(n)` (lines 535–538): `if (n > capacity_) increase_array(n);`. -/
def reserve (v : vector α) (n : Nat) : vector α :=
  if v.capacity < n then increase_array v n else v

/-- `shrink_to_fit()` (lines 543–545): `increase_array(size_)`. -/
def shrink_to_fit (v : vector α) : vector α :=
  increase_array v v.size

/-! ### Element access (lines 556–634) -/

/-- `operator[](n)`: `*(array_start_ + n)` — the (possibly raw) slot at
offset `n`; `none` when the slot is unconstructed or outside the buffer. -/
def subscript (v : vector α) (n : Nat) : Option α :=
  v.buf.getD n none

/-- `at(n)` (lines 574–578 and the identical const overload 589–593):
`if (n < capacity_ && n > 0) return *(array_start_ + n); else throw
std::out_of_range(...)`.  `Except.error ()` models the thrown exception. -/
def at_checked (v : vector α) (n : Nat) : Except Unit (Option α) :=
  if n < v.capacity ∧ 0 < n then Except.ok (v.buf.getD n none)
  else Except.error ()

/-- `back()` (lines 617–627): `*(array_end_)` — dereferences the
end-of-size pointer itself. -/
def back (v : vector α) : Option α :=
  v.buf.getD v.endOff none

/-! ### Modifiers (lines 647–901) -/

/-- `assign(first, last)` (lines 647–659).  If `last - first <= capacity_`:
`size_ = last - first;` construct the range at `array_start_`;
`set_pointers()`.  Else: `size_ = last - first;` (before the allocation!)
then `increase_array(last - first)`, construct, `set_pointers()`. -/
def assign_range (v : vector α) (xs : List α) : vector α :=
  if xs.length ≤ v.capacity then
    let v := { v with size := xs.length }
    let v := { v with buf := write_list v.buf 0 xs }
    set_pointers v
  else
    let v := { v with size := xs.length }
    let v := increase_array v xs.length
    let v := { v with buf := write_list v.buf 0 xs }
    set_pointers v

/-- `assign(first, last)` again, with the allocator made explicit:
`increase_array` starts with `allocator_.allocate(new_size)`, which can
throw; at that point nothing has been written yet, so the throw leaves the
state reached so far.  `Except.error s` is the exception escaping with the
container in state `s`; note the grow branch has already set `size_` when
the allocation is attempted. -/
def assign_rangeF (allocOk : Nat → Bool) (v : vector α) (xs : List α) :
    Except (vector α) (vector α) :=
  if xs.length ≤ v.capacity then
    Except.ok (assign_range v xs)
  else
    let v1 := { v with size := xs.length }
    if allocOk xs.length then
      let v2 := increase_array v1 xs.length
      Except.ok (set_pointers { v2 with buf := write_list v2.buf 0 xs })
    else
      Except.error v1

/-- `assign(n, val)` (lines 667–678): same shape with
`construct_elements(array_, n, val)`. -/
def assign_count (v : vector α) (n : Nat) (val : α) : vector α :=
  if n ≤ v.capacity then
    let v := { v with size := n }
    let v := { v with buf := construct_fill v.buf 0 n val }
    set_pointers v
  else
    let v := { v with size := n }
    let v := increase_array v n
    let v := { v with buf := construct_fill v.buf 0 n val }
    set_pointers v

/-- Modelled from the spec: `assign(il)` (lines 685–696).  The
capacity-sufficient branch is transcribed from the source
(`construct_elements(il.begin(), il.end(), array_start_)`).  The grow branch
of the source reads `s(il.begin(), il.end(), begin())` where `s` names
nothing in the repository (the call cannot compile when instantiated); the
spec says assign must "reallocate first" and then construct the list's
elements over the start of the buffer, so that branch's construct call is
modelled as the range construction the spec describes (identical in the
model to `write_list` at offset 0, the position `begin()` denotes). -/
def assign_il (v : vector α) (xs : List α) : vector α :=
  if xs.length ≤ v.capacity then
    let v := { v with size := xs.length }
    let v := { v with buf := write_list v.buf 0 xs }
    set_pointers v
  else
    let v := { v with size := xs.length }
    let v := increase_array v xs.length
    let v := { v with buf := write_list v.buf 0 xs }
    set_pointers v

/-- `insert(position, val)` (lines 751–760): `distance = position - cbegin()`;
grow by `max(1, capacity_*2)` when `array_end_ == array_range_end_`;
`size_++` (without `set_pointers`, so `array_end_` is left one short);
`construct_elements(begin() + distance, end(), array_start_ + distance + 1)`
— a forward overlapping self-copy — then construct `val` at `distance`. -/
def insert_one (v : vector α) (pos : Nat) (val : α) : vector α :=
  let v := if v.endOff = v.rangeEndOff then increase_array v (max 1 (2 * v.capacity)) else v
  let v := { v with size := v.size + 1 }
  let v := { v with buf := construct_loop v.buf pos (pos + 1) (v.endOff - pos) }
  { v with buf := v.buf.set pos (some val) }

/-- `erase(position)` (lines 853–860): `distance = position - cbegin()`;
`construct_elements(begin() + distance + 1, end(), array_start_ + distance)`;
`size_--` (without `set_pointers`). -/
def erase_one (v : vector α) (pos : Nat) : vector α :=
  let v := { v with buf := construct_loop v.buf (pos + 1) pos (v.endOff - (pos + 1)) }
  { v with size := v.size - 1 }

/-! ### Pointwise characterizations of the buffer primitives -/

theorem getElem?_set' (l : List (Option α)) (i j : Nat) (a : Option α) :
    (l.set i a)[j]? = if i = j ∧ j < l.length then some a else l[j]? := by
  rw [List.getElem?_set]
  by_cases h : i = j
  · subst h
    by_cases h2 : i < l.length
    · simp [h2]
    · simp [h2, List.getElem?_eq_none (Nat.le_of_not_lt h2)]
  · simp [h]

theorem construct_fill_length (buf : List (Option α)) (d c : Nat) (val : α) :
    (construct_fill buf d c val).length = buf.length := by
  induction c generalizing buf d with
  | zero => rfl
  | succ k ih => rw [construct_fill, ih, List.length_set]

theorem construct_fill_getElem? (buf : List (Option α)) (d c : Nat) (val : α) (i : Nat) :
    (construct_fill buf d c val)[i]? =
      if d ≤ i ∧ i < d + c ∧ i < buf.length then some (some val) else buf[i]? := by
  induction c generalizing buf d with
  | zero =>
    rw [construct_fill]
    have : ¬ (d ≤ i ∧ i < d + 0 ∧ i < buf.length) := by omega
    rw [if_neg this]
  | succ k ih =>
    rw [construct_fill, ih, List.length_set, getElem?_set']
    by_cases hd : d = i
    · subst hd
      by_cases hl : d < buf.length
      · have h1 : ¬ (d + 1 ≤ d ∧ d < d + 1 + k ∧ d < buf.length) := by omega
        have h2 : d ≤ d ∧ d < d + (k + 1) ∧ d < buf.length := by omega
        rw [if_neg h1, if_pos ⟨rfl, hl⟩, if_pos h2]
      · have h1 : ¬ (d + 1 ≤ d ∧ d < d + 1 + k ∧ d < buf.length) := by omega
        have h2 : ¬ (d ≤ d ∧ d < d + (k + 1) ∧ d < buf.length) := by omega
        rw [if_neg h1, if_neg (by simp [hl]), if_neg h2]
    · by_cases hr : d + 1 ≤ i ∧ i < d + 1 + k ∧ i < buf.length
      · have : d ≤ i ∧ i < d + (k + 1) ∧ i < buf.length := by omega
        rw [if_pos hr, if_pos this]
      · have : ¬ (d ≤ i ∧ i < d + (k + 1) ∧ i < buf.length) := by omega
        rw [if_neg hr, if_neg this, if_neg (by simp [hd])]

theorem write_list_length (buf : List (Option α)) (d : Nat) (xs : List α) :
    (write_list buf d xs).length = buf.length := by
  induction xs generalizing buf d with
  | nil => rfl
  | cons x xs ih => rw [write_list, ih, List.length_set]

theorem write_list_getElem? (buf : List (Option α)) (d : Nat) (xs : List α) (i : Nat) :
    (write_list buf d xs)[i]? =
      if d ≤ i ∧ i < d + xs.length ∧ i < buf.length then (xs[i - d]?).map some
      else buf[i]? := by
  induction xs generalizing buf d with
  | nil =>
    rw [write_list]
    have : ¬ (d ≤ i ∧ i < d + ([] : List α).length ∧ i < buf.length) := by
      simp only [List.length_nil]; omega
    rw [if_neg this]
  | cons x xs ih =>
    rw [write_list, ih, List.length_set, getElem?_set']
    by_cases hd : d = i
    · subst hd
      by_cases hl : d < buf.length
      · have h1 : ¬ (d + 1 ≤ d ∧ d < d + 1 + xs.length ∧ d < buf.length) := by omega
        have h2 : d ≤ d ∧ d < d + (x :: xs).length ∧ d < buf.length := by
          simp only [List.length_cons]; omega
        rw [if_neg h1, if_pos ⟨rfl, hl⟩, if_pos h2]
        simp
      · have h1 : ¬ (d + 1 ≤ d ∧ d < d + 1 + xs.length ∧ d < buf.length) := by omega
        have h2 : ¬ (d ≤ d ∧ d < d + (x :: xs).length ∧ d < buf.length) := by
          simp only [List.length_cons]; omega
        rw [if_neg h1, if_neg (by simp [hl]), if_neg h2]
    · by_cases hr : d + 1 ≤ i ∧ i < d + 1 + xs.length ∧ i < buf.length
      · have h2 : d ≤ i ∧ i < d + (x :: xs).length ∧ i < buf.length := by
          simp only [List.length_cons]; omega
        rw [if_pos hr, if_pos h2]
        have : i - d = (i - (d + 1)) + 1 := by omega
        rw [this]
        simp
      · have h2 : ¬ (d ≤ i ∧ i < d + (x :: xs).length ∧ i < buf.length) := by
          simp only [List.length_cons]; omega
        rw [if_neg hr, if_neg (by simp [hd]), if_neg h2]

theorem copy_loop_length (src : List (Option α)) (b : Nat) (dst : List (Option α))
    (d c : Nat) : (copy_loop src b dst d c).length = dst.length := by
  induction c generalizing b dst d with
  | zero => rfl
  | succ k ih => rw [copy_loop, ih, List.length_set]

theorem copy_loop_getElem? (src : List (Option α)) (b : Nat) (dst : List (Option α))
    (d c : Nat) (i : Nat) :
    (copy_loop src b dst d c)[i]? =
      if d ≤ i ∧ i < d + c ∧ i < dst.length then some (src.getD (b + (i - d)) none)
      else dst[i]? := by
  induction c generalizing b dst d with
  | zero =>
    rw [copy_loop]
    have : ¬ (d ≤ i ∧ i < d + 0 ∧ i < dst.length) := by omega
    rw [if_neg this]
  | succ k ih =>
    rw [copy_loop, ih, List.length_set, getElem?_set']
    by_cases hd : d = i
    · subst hd
      by_cases hl : d < dst.length
      · have h1 : ¬ (d + 1 ≤ d ∧ d < d + 1 + k ∧ d < dst.length) := by omega
        have h2 : d ≤ d ∧ d < d + (k + 1) ∧ d < dst.length := by omega
        rw [if_neg h1, if_pos ⟨rfl, hl⟩, if_pos h2]
        simp
      · have h1 : ¬ (d + 1 ≤ d ∧ d < d + 1 + k ∧ d < dst.length) := by omega
        have h2 : ¬ (d ≤ d ∧ d < d + (k + 1) ∧ d < dst.length) := by omega
        rw [if_neg h1, if_neg (by simp [hl]), if_neg h2]
    · by_cases hr : d + 1 ≤ i ∧ i < d + 1 + k ∧ i < dst.length
      · have h2 : d ≤ i ∧ i < d + (k + 1) ∧ i < dst.length := by omega
        have h3 : b + 1 + (i - (d + 1)) = b + (i - d) := by omega
        rw [if_pos hr, if_pos h2, h3]
      · have h2 : ¬ (d ≤ i ∧ i < d + (k + 1) ∧ i < dst.length) := by omega
        rw [if_neg hr, if_neg (by simp [hd]), if_neg h2]

theorem destroy_elements_length (buf : List (Option α)) (s c : Nat) :
    (destroy_elements buf s c).length = buf.length := by
  induction c generalizing buf s with
  | zero => rfl
  | succ k ih => rw [destroy_elements, ih, List.length_set]

/-- Two lists agree up to `k` as soon as they agree pointwise below `k`. -/
theorem take_ext {β : Type} (l₁ l₂ : List β) (k : Nat)
    (h : ∀ i, i < k → l₁[i]? = l₂[i]?) : l₁.take k = l₂.take k := by
  apply List.ext_getElem?
  intro i
  rw [List.getElem?_take, List.getElem?_take]
  by_cases hi : i < k
  · rw [if_pos hi, if_pos hi, h i hi]
  · rw [if_neg hi, if_neg hi]

theorem getD_bridge (l : List (Option α)) (i : Nat) (h : i < l.length) :
    some (l.getD i none) = l[i]? := by
  rw [List.getD_eq_getElem?_getD, List.getElem?_eq_getElem h]
  rfl

/-! ### Behaviour of `increase_array` -/

theorem increase_array_capacity (v : vector α) (m : Nat) :
    (increase_array v m).capacity = m := rfl

theorem increase_array_size (v : vector α) (m : Nat) :
    (increase_array v m).size = v.size := rfl

theorem increase_array_endOff (v : vector α) (m : Nat) :
    (increase_array v m).endOff = v.size := rfl

theorem increase_array_rangeEndOff (v : vector α) (m : Nat) :
    (increase_array v m).rangeEndOff = m := rfl

theorem increase_array_bufId (v : vector α) (m : Nat) :
    (increase_array v m).bufId = v.bufId + 1 := rfl

theorem increase_array_buf_length (v : vector α) (m : Nat) :
    (increase_array v m).buf.length = m := by
  show (copy_loop v.buf 0 (List.replicate m none) 0 (min v.endOff m)).length = m
  rw [copy_loop_length, List.length_replicate]

theorem increase_array_getElem? (v : vector α) (m i : Nat) :
    (increase_array v m).buf[i]? =
      if i < min v.endOff m then some (v.buf.getD i none)
      else if i < m then some none else none := by
  show (copy_loop v.buf 0 (List.replicate m none) 0 (min v.endOff m))[i]? = _
  rw [copy_loop_getElem?, List.length_replicate]
  by_cases hi : i < min v.endOff m
  · have h1 : 0 ≤ i ∧ i < 0 + min v.endOff m ∧ i < m := by omega
    rw [if_pos h1, if_pos hi]
    simp
  · have h1 : ¬ (0 ≤ i ∧ i < 0 + min v.endOff m ∧ i < m) := by omega
    rw [if_neg h1, if_neg hi, List.getElem?_replicate]

/-- The prefix of live elements survives `increase_array v m` whenever the
state is clean and `v.size ≤ m`. -/
theorem increase_array_take (v : vector α) (m : Nat) (h : WF v) (hm : v.size ≤ m) :
    (increase_array v m).buf.take v.size = v.buf.take v.size := by
  obtain ⟨hlen, hend, hrange, hsz⟩ := h
  apply take_ext
  intro i hi
  rw [increase_array_getElem?, hend]
  rw [if_pos (by omega)]
  exact getD_bridge v.buf i (by omega)

/-! ### Round-trip behaviour of the construct primitives on a prefix -/

theorem write_list_take (B : List (Option α)) (xs : List α) (h : xs.length ≤ B.length) :
    (write_list B 0 xs).take xs.length = xs.map some := by
  apply List.ext_getElem?
  intro i
  rw [List.getElem?_take, write_list_getElem?]
  by_cases hi : i < xs.length
  · rw [if_pos hi, if_pos (by omega)]
    have : i - 0 = i := by omega
    rw [this, List.getElem?_map]
  · rw [if_neg hi, Eq.comm]
    exact List.getElem?_eq_none (by rw [List.length_map]; omega)

theorem construct_fill_take (B : List (Option α)) (n : Nat) (val : α) (h : n ≤ B.length) :
    (construct_fill B 0 n val).take n = List.replicate n (some val) := by
  apply List.ext_getElem?
  intro i
  rw [List.getElem?_take, construct_fill_getElem?, List.getElem?_replicate]
  by_cases hi : i < n
  · rw [if_pos hi, if_pos (by omega), if_pos hi]
  · rw [if_neg hi, if_neg hi]

/-- `assign(il)` and `assign(first, last)` have literally the same body in
the model (the list's begin/end iterators play the role of the range). -/
theorem assign_il_eq_assign_range (v : vector α) (xs : List α) :
    assign_il v xs = assign_range v xs := rfl

/-! ### Branch unfoldings of the compound operations -/

theorem resize_fill_grow_size (v : vector α) (n : Nat) (val : α) (hne : ¬ n ≤ v.size) :
    (resize_fill v n val).size = n := by
  unfold resize_fill
  rw [if_neg hne]
  rfl

theorem resize_fill_grow_buf (v : vector α) (n : Nat) (val : α) (hne : ¬ n ≤ v.size) :
    (resize_fill v n val).buf =
      construct_fill (increase_array v (max n (2 * v.capacity))).buf v.size
        (max n (2 * v.capacity) - v.size) val := by
  unfold resize_fill
  rw [if_neg hne]
  rfl

theorem assign_range_size (v : vector α) (xs : List α) :
    (assign_range v xs).size = xs.length := by
  unfold assign_range
  by_cases h : xs.length ≤ v.capacity
  · rw [if_pos h]
    rfl
  · rw [if_neg h]
    rfl

theorem assign_range_buf_fit (v : vector α) (xs : List α) (h : xs.length ≤ v.capacity) :
    (assign_range v xs).buf = write_list v.buf 0 xs := by
  unfold assign_range
  rw [if_pos h]
  rfl

theorem assign_range_buf_grow (v : vector α) (xs : List α) (h : ¬ xs.length ≤ v.capacity) :
    (assign_range v xs).buf =
      write_list (increase_array { v with size := xs.length } xs.length).buf 0 xs := by
  unfold assign_range
  rw [if_neg h]
  rfl

theorem assign_count_size (v : vector α) (n : Nat) (val : α) :
    (assign_count v n val).size = n := by
  unfold assign_count
  by_cases h : n ≤ v.capacity
  · rw [if_pos h]
    rfl
  · rw [if_neg h]
    rfl

theorem assign_count_buf_fit (v : vector α) (n : Nat) (val : α) (h : n ≤ v.capacity) :
    (assign_count v n val).buf = construct_fill v.buf 0 n val := by
  unfold assign_count
  rw [if_pos h]
  rfl

theorem assign_count_buf_grow (v : vector α) (n : Nat) (val : α) (h : ¬ n ≤ v.capacity) :
    (assign_count v n val).buf =
      construct_fill (increase_array { v with size := n } n).buf 0 n val := by
  unfold assign_count
  rw [if_neg h]
  rfl

/-- `assign(first, last)` leaves `size_ == last - first` and the buffer
holding exactly the assigned sequence below that size. -/
theorem assign_range_roundtrip (v : vector α) (xs : List α) (h : WF v) :
    (assign_range v xs).size = xs.length ∧
    (assign_range v xs).buf.take xs.length = xs.map some := by
  obtain ⟨hlen, hend, hrange, hsz⟩ := h
  refine ⟨assign_range_size v xs, ?_⟩
  by_cases hc : xs.length ≤ v.capacity
  · rw [assign_range_buf_fit v xs hc]
    exact write_list_take v.buf xs (by omega)
  · rw [assign_range_buf_grow v xs hc]
    exact write_list_take _ xs (by rw [increase_array_buf_length])

/-- `assign(n, val)` leaves `size_ == n` and `n` copies of `val` below it. -/
theorem assign_count_roundtrip (v : vector α) (n : Nat) (val : α) (h : WF v) :
    (assign_count v n val).size = n ∧
    (assign_count v n val).buf.take n = List.replicate n (some val) := by
  obtain ⟨hlen, hend, hrange, hsz⟩ := h
  refine ⟨assign_count_size v n val, ?_⟩
  by_cases hc : n ≤ v.capacity
  · rw [assign_count_buf_fit v n val hc]
    exact construct_fill_take v.buf n val (by omega)
  · rw [assign_count_buf_grow v n val hc]
    exact construct_fill_take _ n val (by rw [increase_array_buf_length])

/-! ### The claims -/

/-- C1: `at(index)` does NOT raise exactly when `index ∉ [0, size)`: the
source checks `n < capacity_ && n > 0`, so on a one-element vector `at(0)`
throws even though `0 < size`, and after shrinking a two-element vector to
size 1 (capacity 2) `at(1)` succeeds — returning the destroyed slot —
even though `1 ≥ size`. -/
theorem at_bounds_check_defect :
    at_checked (mk_fill 1 (7 : Nat)) 0 = Except.error () ∧
    (mk_fill 1 (7 : Nat)).size = 1 ∧
    (resize_n (mk_fill 2 (7 : Nat)) 1).size = 1 ∧
    (resize_n (mk_fill 2 (7 : Nat)) 1).capacity = 2 ∧
    at_checked (resize_n (mk_fill 2 (7 : Nat)) 1) 1 = Except.ok none :=
  ⟨rfl, rfl, rfl, rfl, rfl⟩

/-- C2: `insert(begin(), 9)` on `{1, 2, 3}` followed by `erase(begin())` does
NOT restore the original sequence: the forward overlapping shift in `insert`
clobbers the tail with the element at the insertion point, and `array_end_`
is left stale, so the round trip yields `1, 1, 1` instead of `1, 2, 3`
(the size does return to 3). -/
theorem insert_erase_roundtrip_defect :
    (mk_list [1, 2, 3] : vector Nat).size = 3 ∧
    (mk_list [1, 2, 3] : vector Nat).buf.take 3 = [some 1, some 2, some 3] ∧
    (erase_one (insert_one (mk_list [1, 2, 3] : vector Nat) 0 9) 0).size = 3 ∧
    (erase_one (insert_one (mk_list [1, 2, 3] : vector Nat) 0 9) 0).buf.take 3 =
      [some 1, some 1, some 1] :=
  ⟨rfl, rfl, rfl, rfl⟩

/-- C3: `resize(n, val)` from a clean state of size `s < n` leaves
`size == n`, keeps the first `s` elements, and fills `[s, n)` with `val`.
(`resize_fill`'s grow-branch fill is modelled from the spec, the source's
call being ill-formed; see its doc comment.) -/
theorem resize_fill_spec (v : vector α) (n : Nat) (val : α) (h : WF v)
    (hn : v.size < n) :
    (resize_fill v n val).size = n ∧
    (resize_fill v n val).buf.take v.size = v.buf.take v.size ∧
    ((resize_fill v n val).buf.drop v.size).take (n - v.size) =
      List.replicate (n - v.size) (some val) := by
  have hne : ¬ n ≤ v.size := by omega
  obtain ⟨hlen, hend, hrange, hsz⟩ := h
  have hM : n ≤ max n (2 * v.capacity) := le_max_left _ _
  refine ⟨resize_fill_grow_size v n val hne, ?_, ?_⟩
  · rw [resize_fill_grow_buf v n val hne]
    apply take_ext
    intro i hi
    rw [construct_fill_getElem?]
    rw [if_neg (by omega)]
    rw [increase_array_getElem?, hend]
    rw [if_pos (by omega)]
    exact getD_bridge v.buf i (by omega)
  · rw [resize_fill_grow_buf v n val hne]
    apply List.ext_getElem?
    intro j
    rw [List.getElem?_take, List.getElem?_replicate]
    by_cases hj : j < n - v.size
    · rw [if_pos hj, List.getElem?_drop, construct_fill_getElem?,
        increase_array_buf_length]
      rw [if_pos (by omega), if_pos hj]
    · rw [if_neg hj, if_neg hj]

/-- C4: when the allocation inside `assign` fails, the error propagates but
the container is NOT left unchanged: the grow branch of `assign` executes
`size_ = last - first` before calling `increase_array`, so the escaped
exception leaves a default-constructed vector with `size == 3` (and
`capacity == 0`) after a failed 3-element assign. -/
theorem assign_alloc_failure_mutates :
    assign_rangeF (fun _ => false) (mk_default : vector Nat) [1, 2, 3] =
      Except.error { (mk_default : vector Nat) with size := 3 } ∧
    (mk_default : vector Nat).size = 0 ∧
    (mk_default : vector Nat).capacity = 0 :=
  ⟨rfl, rfl, rfl⟩

/-- C5: after move construction or move assignment from `x`, the destination
holds exactly `x`'s buffer (hence its elements, in order) with `x`'s size
and capacity, and `x` is left with `size == 0`, `capacity == 0` and a null
buffer. -/
theorem move_transfer_spec (a x : vector α) :
    ((move_ctor x).1.size = x.size ∧ (move_ctor x).1.capacity = x.capacity ∧
      (move_ctor x).1.buf = x.buf ∧
      (move_ctor x).2.size = 0 ∧ (move_ctor x).2.capacity = 0 ∧
      (move_ctor x).2.isNull = true) ∧
    ((move_assign a x).1.size = x.size ∧ (move_assign a x).1.capacity = x.capacity ∧
      (move_assign a x).1.buf = x.buf ∧
      (move_assign a x).2.size = 0 ∧ (move_assign a x).2.capacity = 0 ∧
      (move_assign a x).2.isNull = true) :=
  ⟨⟨rfl, rfl, rfl, rfl, rfl, rfl⟩, ⟨rfl, rfl, rfl, rfl, rfl, rfl⟩⟩

/-- C6: each assign form, from any clean state, leaves the container holding
exactly the assigned sequence: `assign(first, last)` the range, `assign(n,
val)` `n` copies of `val`, `assign(il)` the list — and `size` equals the
assigned length in each case. -/
theorem assign_roundtrip (v w u : vector α) (xs ys : List α) (n : Nat) (val : α)
    (hv : WF v) (hw : WF w) (hu : WF u) :
    ((assign_range v xs).size = xs.length ∧
      (assign_range v xs).buf.take xs.length = xs.map some) ∧
    ((assign_count w n val).size = n ∧
      (assign_count w n val).buf.take n = List.replicate n (some val)) ∧
    ((assign_il u ys).size = ys.length ∧
      (assign_il u ys).buf.take ys.length = ys.map some) := by
  refine ⟨assign_range_roundtrip v xs hv, assign_count_roundtrip w n val hw, ?_⟩
  rw [assign_il_eq_assign_range]
  exact assign_range_roundtrip u ys hu

/-- C7: `back()` does NOT return the element at `size - 1`: it dereferences
`array_end_` itself, so on the one-element vector `{7}` it reads the raw
slot at offset 1 (no constructed value) while the last live element,
`7`, sits at offset `size - 1 = 0`. -/
theorem back_off_by_one_defect :
    back (mk_fill 1 (7 : Nat)) = none ∧
    subscript (mk_fill 1 (7 : Nat)) ((mk_fill 1 (7 : Nat)).size - 1) = some 7 :=
  ⟨rfl, rfl⟩

/-- C8: `reserve(n)` from a clean state never changes `size` or the live
elements, guarantees `capacity ≥ n` afterwards, and is a complete no-op
(same state, in particular same buffer identity) when `n ≤ capacity`. -/
theorem reserve_frame_spec (v : vector α) (n : Nat) (h : WF v) :
    (reserve v n).size = v.size ∧
    (reserve v n).buf.take v.size = v.buf.take v.size ∧
    n ≤ (reserve v n).capacity ∧
    (n ≤ v.capacity → reserve v n = v) := by
  by_cases hc : v.capacity < n
  · unfold reserve
    rw [if_pos hc]
    obtain ⟨hlen, hend, hrange, hsz⟩ := h
    refine ⟨increase_array_size v n, ?_, ?_, ?_⟩
    · exact increase_array_take v n ⟨hlen, hend, hrange, hsz⟩ (by omega)
    · rw [increase_array_capacity]
    · intro hle
      exfalso
      omega
  · unfold reserve
    rw [if_neg hc]
    exact ⟨rfl, rfl, by omega, fun _ => rfl⟩

/-- C9: the public API does NOT maintain invariants I1 and I3.  I1
(`size ≤ capacity`): inserting twice at the front of the one-element vector
`{7}` ends with `size == 3` but `capacity == 2`, because `insert` leaves
`array_end_` stale so the second call skips the growth check.  I3
(`buffer == null ⇔ capacity == 0`): the count constructor with `n == 0`
calls `allocate(0)`, which returns a non-null pointer, leaving a non-null
buffer with `capacity == 0`. -/
theorem invariant_preservation_defect :
    (insert_one (insert_one (mk_fill 1 (7 : Nat)) 0 8) 0 9).size = 3 ∧
    (insert_one (insert_one (mk_fill 1 (7 : Nat)) 0 8) 0 9).capacity = 2 ∧
    (mk_n 0 : vector Nat).isNull = false ∧
    (mk_n 0 : vector Nat).capacity = 0 :=
  ⟨rfl, rfl, rfl, rfl⟩

/-- C10: copy assignment `a = x` with `x.size ≤ a.capacity` takes the
capacity-sufficient branch: `a`'s buffer identity and capacity are
untouched, and afterwards `a.size == x.size` with `x`'s elements copied
into `a`'s first `x.size` slots. -/
theorem copy_assign_frame_spec (a x : vector α) (ha : WF a) (hx : WF x)
    (h : x.size ≤ a.capacity) :
    (copy_assign a x).bufId = a.bufId ∧
    (copy_assign a x).isNull = a.isNull ∧
    (copy_assign a x).capacity = a.capacity ∧
    (copy_assign a x).size = x.size ∧
    (copy_assign a x).buf.take x.size = x.buf.take x.size := by
  obtain ⟨halen, haend, harange, hasz⟩ := ha
  obtain ⟨hxlen, hxend, hxrange, hxsz⟩ := hx
  unfold copy_assign
  rw [if_pos h]
  refine ⟨rfl, rfl, rfl, rfl, ?_⟩
  show (copy_loop x.buf 0 a.buf 0 x.endOff).take x.size = x.buf.take x.size
  apply take_ext
  intro i hi
  rw [copy_loop_getElem?]
  rw [if_pos (by omega)]
  have h0 : (0 : Nat) + (i - 0) = i := by omega
  rw [h0]
  exact getD_bridge x.buf i (by omega)

/-! ### Witnesses -/

/-- Witness for C3 at the concrete input `{5, 6}.resize(4, 9)`. -/
theorem resize_fill_spec_witness :
    WF (mk_list [5, 6] : vector Nat) ∧ (mk_list [5, 6] : vector Nat).size < 4 ∧
    ((resize_fill (mk_list [5, 6] : vector Nat) 4 9).size = 4 ∧
      (resize_fill (mk_list [5, 6] : vector Nat) 4 9).buf.take
          (mk_list [5, 6] : vector Nat).size =
        (mk_list [5, 6] : vector Nat).buf.take (mk_list [5, 6] : vector Nat).size ∧
      ((resize_fill (mk_list [5, 6] : vector Nat) 4 9).buf.drop
            (mk_list [5, 6] : vector Nat).size).take
          (4 - (mk_list [5, 6] : vector Nat).size) =
        List.replicate (4 - (mk_list [5, 6] : vector Nat).size) (some 9)) :=
  ⟨by decide, by decide,
    resize_fill_spec (mk_list [5, 6] : vector Nat) 4 9 (by decide) (by decide)⟩

/-- Witness for C6 at the concrete inputs `{5}.assign({1, 2})` (range form,
growing), `{3, 3}.assign(1, 4)` (count form, in place) and
`{}.assign({8})` (list form, growing). -/
theorem assign_roundtrip_witness :
    WF (mk_list [5] : vector Nat) ∧ WF (mk_fill 2 (3 : Nat)) ∧
    WF (mk_default : vector Nat) ∧
    (((assign_range (mk_list [5] : vector Nat) [1, 2]).size = [1, 2].length ∧
       (assign_range (mk_list [5] : vector Nat) [1, 2]).buf.take [1, 2].length =
         [1, 2].map some) ∧
     ((assign_count (mk_fill 2 (3 : Nat)) 1 4).size = 1 ∧
       (assign_count (mk_fill 2 (3 : Nat)) 1 4).buf.take 1 =
         List.replicate 1 (some 4)) ∧
     ((assign_il (mk_default : vector Nat) [8]).size = [8].length ∧
       (assign_il (mk_default : vector Nat) [8]).buf.take [8].length =
         [8].map some)) :=
  ⟨by decide, by decide, by decide,
    assign_roundtrip (mk_list [5] : vector Nat) (mk_fill 2 (3 : Nat))
      (mk_default : vector Nat) [1, 2] [8] 1 4 (by decide) (by decide) (by decide)⟩

/-- Witness for C8 at the concrete input `{4, 5}.reserve(3)`. -/
theorem reserve_frame_spec_witness :
    WF (mk_list [4, 5] : vector Nat) ∧
    ((reserve (mk_list [4, 5] : vector Nat) 3).size = (mk_list [4, 5] : vector Nat).size ∧
      (reserve (mk_list [4, 5] : vector Nat) 3).buf.take (mk_list [4, 5] : vector Nat).size =
        (mk_list [4, 5] : vector Nat).buf.take (mk_list [4, 5] : vector Nat).size ∧
      3 ≤ (reserve (mk_list [4, 5] : vector Nat) 3).capacity ∧
      (3 ≤ (mk_list [4, 5] : vector Nat).capacity →
        reserve (mk_list [4, 5] : vector Nat) 3 = (mk_list [4, 5] : vector Nat))) :=
  ⟨by decide, reserve_frame_spec (mk_list [4, 5] : vector Nat) 3 (by decide)⟩

/-- Witness for C10 at the concrete input `a = {0, 0, 0}` (capacity 3),
`x = {1, 2}`. -/
theorem copy_assign_frame_spec_witness :
    WF (mk_fill 3 (0 : Nat)) ∧ WF (mk_list [1, 2] : vector Nat) ∧
    (mk_list [1, 2] : vector Nat).size ≤ (mk_fill 3 (0 : Nat)).capacity ∧
    ((copy_assign (mk_fill 3 (0 : Nat)) (mk_list [1, 2] : vector Nat)).bufId =
        (mk_fill 3 (0 : Nat)).bufId ∧
      (copy_assign (mk_fill 3 (0 : Nat)) (mk_list [1, 2] : vector Nat)).isNull =
        (mk_fill 3 (0 : Nat)).isNull ∧
      (copy_assign (mk_fill 3 (0 : Nat)) (mk_list [1, 2] : vector Nat)).capacity =
        (mk_fill 3 (0 : Nat)).capacity ∧
      (copy_assign (mk_fill 3 (0 : Nat)) (mk_list [1, 2] : vector Nat)).size =
        (mk_list [1, 2] : vector Nat).size ∧
      (copy_assign (mk_fill 3 (0 : Nat)) (mk_list [1, 2] : vector Nat)).buf.take
          (mk_list [1, 2] : vector Nat).size =
        (mk_list [1, 2] : vector Nat).buf.take (mk_list [1, 2] : vector Nat).size) :=
  ⟨by decide, by decide, by decide,
    copy_assign_frame_spec (mk_fill 3 (0 : Nat)) (mk_list [1, 2] : vector Nat)
      (by decide) (by decide) (by decide)⟩

end FakeVec
